import Mathlib

/-!
Verification development for the `intro_deep_learning` notebook collection.

The repository consists of three Jupyter notebooks (`single_neuron`,
`deep_neural_networks`, and an early-stopping lesson).  Each code cell is a
short sequence of calls into a dataframe library (CSV loading, random
train/validation splitting, min-max scaling) and a deep-learning framework
(`Sequential` model construction, `EarlyStopping` callbacks, `fit`).

This file shallowly embeds those cells:

* `Layer` and the concrete layer lists passed to every `Sequential(...)`
  constructor in the notebooks;
* `Stmt` and the concrete statement lists of every code cell, used for the
  pipeline-shape, error-handling and persistence claims;
* the red-wine dataset's column list and the `drop('quality', axis=1)` step;
* a model of `DataFrame.sample(frac=0.7, random_state=0)` /
  `DataFrame.drop(index)` over row-index lists (the sampling internals live in
  the external dataframe library, so they are modelled from the spec);
* the min-max scaling arithmetic `(x - min_) / (max_ - min_)` over `ℚ`;
* a model of the `EarlyStopping(min_delta=0.001, patience=20,
  restore_best_weights=True)` callback driving `fit(epochs=500)` (the callback
  lives in the external framework, so it is modelled from the spec).
-/

/- ### Layer descriptors passed to `keras.Sequential([...])` -/

/-- Layer descriptors as they appear inside the `Sequential([...])` lists of the
notebooks: `Dense(units, activation=..., input_shape=...)`, `Dropout(rate)`,
`BatchNormalization()` and the standalone `Activation(name)` layer. -/
inductive Layer : Type
  | dense (units : Nat) (activation : Option String) (inputShape : Option (List Nat))
  | dropout (rate : ℚ)
  | batchNormalization
  | activationLayer (name : String)
  deriving DecidableEq, Repr

/-- single_neuron: `Sequential([Dense(units=1, input_shape=[3])])`. -/
def singleNeuronModel : List Layer :=
  [Layer.dense 1 none (some [3])]

/-- deep_neural_networks (first document): the stacked-dense example
`Sequential([Dense(units=4, activation='relu', input_shape=[2]),
Dense(units=3, activation='relu'), Dense(units=1)])`. -/
def dnnStackedModel : List Layer :=
  [Layer.dense 4 (some "relu") (some [2]),
   Layer.dense 3 (some "relu") none,
   Layer.dense 1 none none]

/-- deep_neural_networks (second document): the dropout illustration
`Sequential([Dropout(rate=0.3), Dense(16)])`. -/
def dnnDropoutSnippetModel : List Layer :=
  [Layer.dropout (3/10), Layer.dense 16 none none]

/-- deep_neural_networks (second document): the red-wine model
`Sequential([Dense(1024, 'relu', input_shape=[11]), Dropout(0.3),
BatchNormalization(), ..., Dense(1)])`. -/
def dnnWineModel : List Layer :=
  [Layer.dense 1024 (some "relu") (some [11]),
   Layer.dropout (3/10), Layer.batchNormalization,
   Layer.dense 1024 (some "relu") none,
   Layer.dropout (3/10), Layer.batchNormalization,
   Layer.dense 1024 (some "relu") none,
   Layer.dropout (3/10), Layer.batchNormalization,
   Layer.dense 1 none none]

/-- early-stopping notebook, capacity cell: `model`. -/
def p000CapacityModel : List Layer :=
  [Layer.dense 16 (some "relu") none, Layer.dense 1 none none]

/-- early-stopping notebook, capacity cell: `wider`. -/
def p000WiderModel : List Layer :=
  [Layer.dense 32 (some "relu") none, Layer.dense 1 none none]

/-- early-stopping notebook, capacity cell: `deeper`. -/
def p000DeeperModel : List Layer :=
  [Layer.dense 16 (some "relu") none,
   Layer.dense 16 (some "relu") none,
   Layer.dense 1 none none]

/-- early-stopping notebook: the red-wine model
`Sequential([Dense(512, 'relu', input_shape=[11]), Dense(512, 'relu'),
Dense(512, 'relu'), Dense(1)])`. -/
def p000WineModel : List Layer :=
  [Layer.dense 512 (some "relu") (some [11]),
   Layer.dense 512 (some "relu") none,
   Layer.dense 512 (some "relu") none,
   Layer.dense 1 none none]

/-- Every layer list passed to a `Sequential` constructor anywhere in the
repository, in source order.  (The bare layer-tuple snippets of the batch
normalization section are not passed to `Sequential` and so are not here.) -/
def allSequentialConfigs : List (List Layer) :=
  [singleNeuronModel, dnnStackedModel, dnnDropoutSnippetModel, dnnWineModel,
   p000CapacityModel, p000WiderModel, p000DeeperModel, p000WineModel]

/-- True exactly for the descriptors that carry a unit count (the `Dense`
descriptors; `Dropout` carries a rate and `BatchNormalization` nothing). -/
def carriesUnitCount : Layer → Bool
  | Layer.dense _ _ _ => true
  | _ => false

/-- True for `Dense` descriptors. -/
def isDense : Layer → Bool
  | Layer.dense _ _ _ => true
  | _ => false

/-- True for `Dropout` descriptors. -/
def isDropout : Layer → Bool
  | Layer.dropout _ => true
  | _ => false

/-- True for `BatchNormalization` descriptors. -/
def isBatchNorm : Layer → Bool
  | Layer.batchNormalization => true
  | _ => false

/-- Input shape declared on the leading `Dense` layer of a config, if any. -/
def firstInputShape : List Layer → Option (List Nat)
  | Layer.dense _ _ sh :: _ => sh
  | _ => none

/- ### The red-wine dataset's columns and the feature/target split -/

/-- Column labels of `../data/red-wine.csv`, as displayed by the data-prep cell
of the early-stopping notebook (`[4 rows x 12 columns]`). -/
def redWineColumns : List String :=
  ["fixed acidity", "volatile acidity", "citric acid", "residual sugar",
   "chlorides", "free sulfur dioxide", "total sulfur dioxide", "density",
   "pH", "sulphates", "alcohol", "quality"]

/-- Column effect of `df.drop(col, axis=1)`: every column labelled `col` is
removed. -/
def dropColumn (col : String) (cols : List String) : List String :=
  cols.filter (fun c => c ≠ col)

/-- Columns of `X_train = df_train.drop('quality', axis=1)` (and likewise
`X_valid`). -/
def featureColumns : List String :=
  dropColumn "quality" redWineColumns

/- ### Statement-level view of the code cells -/

/-- Statement kinds occurring in (or absent from) the notebooks' code cells.
`tryExcept`, `raiseStmt`, `defErrorClass` and `writeFile` are the constructs the
error-handling and persistence claims quantify over; none of them occurs in any
embedded cell below. -/
inductive Stmt : Type
  | importStmt
  | readCSV (path : String)
  | sampleSplit
  | scaleFrames
  | selectFeatures
  | constructModel
  | layerSnippet
  | configCallback
  | compileModel
  | fitModel
  | plotHistory
  | plotSetup
  | displayFrame
  | printValue
  | modelSummary
  | tryExcept
  | raiseStmt
  | defErrorClass
  | writeFile (path : String)
  deriving DecidableEq, Repr

/-- single_neuron: its one code cell (two imports, one `Sequential`). -/
def singleNeuronCells : List (List Stmt) :=
  [[Stmt.importStmt, Stmt.importStmt, Stmt.constructModel]]

/-- deep_neural_networks, first document: the stacked-dense cell. -/
def dnnStackedCells : List (List Stmt) :=
  [[Stmt.importStmt, Stmt.importStmt, Stmt.constructModel]]

/-- deep_neural_networks, second document (dropout / batch normalization /
red-wine training), cell by cell: the dropout `Sequential`, two bare layer
snippets, plot setup plus data prep (`read_csv`, `sample`/`drop`, feature
selection), the 1024-unit model with `summary()`, and `compile`+`fit`+plot. -/
def dnnTrainingCells : List (List Stmt) :=
  [[Stmt.importStmt, Stmt.importStmt, Stmt.constructModel],
   [Stmt.layerSnippet],
   [Stmt.layerSnippet],
   [Stmt.importStmt, Stmt.plotSetup, Stmt.importStmt,
    Stmt.readCSV "../data/red-wine.csv", Stmt.sampleSplit, Stmt.selectFeatures],
   [Stmt.importStmt, Stmt.importStmt, Stmt.constructModel, Stmt.modelSummary],
   [Stmt.compileModel, Stmt.fitModel, Stmt.plotHistory]]

/-- early-stopping notebook, cell by cell: the three capacity models, the
`EarlyStopping` definition, data prep (`read_csv`, `sample`/`drop`, `display`,
min-max scaling, feature selection), callback + 512-unit model + `compile`,
and `fit` + plot + printed minimum validation loss. -/
def part000Cells : List (List Stmt) :=
  [[Stmt.importStmt, Stmt.importStmt, Stmt.importStmt,
    Stmt.constructModel, Stmt.constructModel, Stmt.constructModel],
   [Stmt.importStmt, Stmt.configCallback],
   [Stmt.importStmt, Stmt.importStmt, Stmt.readCSV "../data/red-wine.csv",
    Stmt.sampleSplit, Stmt.displayFrame, Stmt.scaleFrames, Stmt.selectFeatures],
   [Stmt.importStmt, Stmt.importStmt, Stmt.configCallback,
    Stmt.constructModel, Stmt.compileModel],
   [Stmt.fitModel, Stmt.plotHistory, Stmt.printValue]]

/-- Every code cell of every notebook. -/
def allCells : List (List Stmt) :=
  singleNeuronCells ++ dnnStackedCells ++ dnnTrainingCells ++ part000Cells

/-- The early-stopping notebook's statements in execution order. -/
def part000Steps : List Stmt := part000Cells.flatten

/-- The deep_neural_networks training document's statements in execution
order. -/
def dnnTrainingSteps : List Stmt := dnnTrainingCells.flatten

/-- The five-step pipeline named by the spec: load CSV, split, construct the
model, fit, plot the loss history. -/
def fivePipelineSteps : List Stmt :=
  [Stmt.readCSV "../data/red-wine.csv", Stmt.sampleSplit, Stmt.constructModel,
   Stmt.fitModel, Stmt.plotHistory]

/-- Statements other than imports (imports carry no logic of their own). -/
def nonImportSteps (steps : List Stmt) : List Stmt :=
  steps.filter (fun s => s ≠ Stmt.importStmt)

/-- Decides whether the first list occurs inside the second as an ordered
subsequence. -/
def isOrderedSubseq : List Stmt → List Stmt → Bool
  | [], _ => true
  | _ :: _, [] => false
  | a :: as, b :: bs =>
      if a = b then isOrderedSubseq as bs else isOrderedSubseq (a :: as) bs

/-- True exactly for the error-handling constructs (`try`/`except`, `raise`,
error-class definitions). -/
def isErrorHandling : Stmt → Bool
  | Stmt.tryExcept => true
  | Stmt.raiseStmt => true
  | Stmt.defErrorClass => true
  | _ => false

/-- True exactly for statements that write a file (persist state beyond the
notebook run). -/
def writesPersistentState : Stmt → Bool
  | Stmt.writeFile _ => true
  | _ => false

/-- The path a statement reads from the filesystem, if any. -/
def readsFile : Stmt → Option String
  | Stmt.readCSV p => some p
  | _ => none

/-- All CSV paths a statement sequence reads. -/
def csvPaths (steps : List Stmt) : List String :=
  steps.filterMap readsFile

/-- True when a path does not start at the filesystem root. -/
def isRelativePath (p : String) : Bool :=
  match p.data with
  | [] => true
  | c :: _ => c ≠ '/'

/- ### Model of `sample(frac=0.7, random_state=0)` / `drop(index)` -/

/-- Modelled from the spec: the dataframe library's internal pseudorandom
generator behind "random sampling with a fixed seed".  The library's own
generator is not part of this repository; a linear congruential step stands in
for it.  Nothing below depends on which deterministic generator is used. -/
def lcgNext (s : Nat) : Nat :=
  (1103515245 * s + 12345) % 4294967296

/-- Modelled from the spec: drawing `k` distinct rows from the index list `l`,
one at a time, each draw chosen by the current generator state.  This is the
without-replacement sampling of `DataFrame.sample`. -/
def sampleAux (s : Nat) : Nat → List Nat → List Nat
  | 0, _ => []
  | _ + 1, [] => []
  | k + 1, x :: xs =>
      let chosen := (x :: xs).get ⟨s % (x :: xs).length, Nat.mod_lt _ (Nat.succ_pos _)⟩
      chosen :: sampleAux (lcgNext s) k ((x :: xs).erase chosen)

/-- Modelled from the spec: `red_wine.sample(frac=0.7, random_state=0)` on a
dataframe with index `df`.  With `random_state=some seed` the generator is
seeded from `seed` and the ambient generator state `ambientGen` is ignored;
the number of rows drawn is `round(0.7 * n)`. -/
def sampleFrac70 (randomState : Option Nat) (ambientGen : Nat) (df : List Nat) :
    List Nat :=
  let s := match randomState with
    | some seed => lcgNext seed
    | none => ambientGen
  sampleAux s ((7 * df.length + 5) / 10) df

/-- Row effect of `red_wine.drop(labels)`: every row whose index is in `labels`
is removed. -/
def dropRows (df labels : List Nat) : List Nat :=
  df.filter (fun i => decide (i ∉ labels))

/-- The data-prep split: `df_train = red_wine.sample(frac=0.7, random_state=0)`
and `df_valid = red_wine.drop(df_train.index)`. -/
def trainValidSplit (randomState : Option Nat) (ambientGen : Nat) (df : List Nat) :
    List Nat × List Nat :=
  let train := sampleFrac70 randomState ambientGen df
  (train, dropRows df train)

/- ### Min-max scaling `(df - min_) / (max_ - min_)` -/

/-- Column minimum, as `df_train.min(axis=0)` computes it for one column. -/
def colMin : List ℚ → ℚ
  | [] => 0
  | x :: xs => xs.foldl min x

/-- Column maximum, as `df_train.max(axis=0)` computes it for one column. -/
def colMax : List ℚ → ℚ
  | [] => 0
  | x :: xs => xs.foldl max x

/-- The scaling applied to one value of one column: `(x - min_) / (max_ - min_)`
with `min_` and `max_` computed from the training partition `train` only. -/
def minMaxScale (train : List ℚ) (x : ℚ) : ℚ :=
  (x - colMin train) / (colMax train - colMin train)

/-- One column of `(df - min_) / (max_ - min_)`: both `df_train` and `df_valid`
are mapped through the training partition's statistics. -/
def scaleFrame (train col : List ℚ) : List ℚ :=
  col.map (minMaxScale train)

/- ### Model of `EarlyStopping(min_delta=0.001, patience=20,
     restore_best_weights=True)` driving `fit(epochs=500)` -/

/-- Modelled from the spec: the state of the external framework's early-stopping
callback after an epoch ends.  "Early stopping: a training control that halts
iteration when validation loss stops improving"; the notebook glosses the
parameters as "If there hasn't been at least an improvement of 0.001 in the
validation loss over the previous 20 epochs, then stop the training and keep
the best model you found."  `best` is the best monitored value so far,
`bestEpoch` the epoch it occurred at (whose weights `restore_best_weights`
restores), `wait` the number of epochs since the last improvement, and
`stoppedAt` the epoch at which training was stopped, if it has been. -/
structure ESState where
  best : ℚ
  bestEpoch : Nat
  wait : Nat
  stoppedAt : Option Nat
  deriving DecidableEq, Repr

/-- Modelled from the spec: the callback's end-of-epoch transition.  An epoch
counts as an improvement when its validation loss is below `best - minDelta`;
an improvement resets the wait counter and records the epoch, otherwise the
counter grows and training stops once it reaches `patience`.  After a stop the
state is frozen (no further epochs run). -/
def esStep (minDelta : ℚ) (patience : Nat) (e : Nat) (loss : ℚ) (s : ESState) :
    ESState :=
  if s.stoppedAt.isSome then s
  else if loss < s.best - minDelta then
    { best := loss, bestEpoch := e, wait := 0, stoppedAt := none }
  else if patience ≤ s.wait + 1 then
    { s with wait := s.wait + 1, stoppedAt := some e }
  else
    { s with wait := s.wait + 1 }

/-- Callback state after epochs `0, 1, ..., n` have ended, for the validation
loss the fit run produced at each epoch. -/
def esRun (minDelta : ℚ) (patience : Nat) (valLoss : Nat → ℚ) : Nat → ESState
  | 0 => { best := valLoss 0, bestEpoch := 0, wait := 0, stoppedAt := none }
  | n + 1 =>
      esStep minDelta patience (n + 1) (valLoss (n + 1))
        (esRun minDelta patience valLoss n)

/-- Number of epochs `fit(epochs=maxEpochs, callbacks=[early_stopping])`
actually runs: up to and including the stopping epoch, or all of them. -/
def epochsRun (minDelta : ℚ) (patience maxEpochs : Nat) (valLoss : Nat → ℚ) :
    Nat :=
  match maxEpochs with
  | 0 => 0
  | m + 1 =>
      match (esRun minDelta patience valLoss m).stoppedAt with
      | some e => e + 1
      | none => m + 1

/-- The early-stopping notebook's fit call: `min_delta=0.001`, `patience=20`,
`epochs=500`. -/
def p000FitEpochsRun (valLoss : Nat → ℚ) : Nat :=
  epochsRun (1/1000) 20 500 valLoss

/-- The epoch whose weights `restore_best_weights=True` leaves in the model at
the end of the early-stopping notebook's fit call. -/
def p000FitKeptEpoch (valLoss : Nat → ℚ) : Nat :=
  (esRun (1/1000) 20 valLoss 499).bestEpoch

/- ### Lemmas about the sampling model -/

/-- Every drawn row index comes from the dataframe's index list. -/
theorem sampleAux_subset : ∀ (k s : Nat) (l : List Nat) (y : Nat),
    y ∈ sampleAux s k l → y ∈ l := by
  intro k
  induction k with
  | zero => intro s l y hy; simp [sampleAux] at hy
  | succ k ih =>
    intro s l y hy
    cases l with
    | nil => simp [sampleAux] at hy
    | cons x xs =>
      simp only [sampleAux] at hy
      rcases List.mem_cons.mp hy with h | h
      · subst h; exact List.get_mem _ _ _
      · exact List.mem_of_mem_erase (ih _ _ _ h)

/-- Sampling without replacement never repeats a row of a duplicate-free
index list. -/
theorem sampleAux_nodup : ∀ (k s : Nat) (l : List Nat), l.Nodup →
    (sampleAux s k l).Nodup := by
  intro k
  induction k with
  | zero => intro s l _; simp [sampleAux]
  | succ k ih =>
    intro s l hl
    cases l with
    | nil => simp [sampleAux]
    | cons x xs =>
      simp only [sampleAux]
      refine List.nodup_cons.mpr ⟨fun hmem => ?_, ih _ _ (hl.erase _)⟩
      exact hl.not_mem_erase (sampleAux_subset _ _ _ _ hmem)

/- ### Lemmas about column minima and maxima -/

/-- Folding `min` only lowers the accumulator. -/
theorem foldl_min_le (xs : List ℚ) (a : ℚ) : xs.foldl min a ≤ a := by
  induction xs generalizing a with
  | nil => exact le_refl a
  | cons y ys ih => exact le_trans (ih (min a y)) (min_le_left a y)

/-- Folding `min` ends below every list element. -/
theorem foldl_min_le_of_mem (x : ℚ) : ∀ (xs : List ℚ) (a : ℚ), x ∈ xs →
    xs.foldl min a ≤ x
  | [], _, hx => absurd hx (List.not_mem_nil x)
  | y :: ys, a, hx => by
      rcases List.mem_cons.mp hx with h | h
      · subst h
        exact le_trans (foldl_min_le ys (min a x)) (min_le_right a x)
      · exact foldl_min_le_of_mem x ys (min a y) h

/-- Folding `max` only raises the accumulator. -/
theorem le_foldl_max (xs : List ℚ) (a : ℚ) : a ≤ xs.foldl max a := by
  induction xs generalizing a with
  | nil => exact le_refl a
  | cons y ys ih => exact le_trans (le_max_left a y) (ih (max a y))

/-- Folding `max` ends above every list element. -/
theorem le_foldl_max_of_mem (x : ℚ) : ∀ (xs : List ℚ) (a : ℚ), x ∈ xs →
    x ≤ xs.foldl max a
  | [], _, hx => absurd hx (List.not_mem_nil x)
  | y :: ys, a, hx => by
      rcases List.mem_cons.mp hx with h | h
      · subst h
        exact le_trans (le_max_right a x) (le_foldl_max ys (max a x))
      · exact le_foldl_max_of_mem x ys (max a y) h

/-- The column minimum is below every column entry. -/
theorem colMin_le_of_mem {l : List ℚ} {x : ℚ} (hx : x ∈ l) : colMin l ≤ x := by
  cases l with
  | nil => cases hx
  | cons y ys =>
    show ys.foldl min y ≤ x
    rcases List.mem_cons.mp hx with h | h
    · subst h; exact foldl_min_le ys x
    · exact foldl_min_le_of_mem x ys y h

/-- The column maximum is above every column entry. -/
theorem le_colMax_of_mem {l : List ℚ} {x : ℚ} (hx : x ∈ l) : x ≤ colMax l := by
  cases l with
  | nil => cases hx
  | cons y ys =>
    show x ≤ ys.foldl max y
    rcases List.mem_cons.mp hx with h | h
    · subst h; exact le_foldl_max ys x
    · exact le_foldl_max_of_mem x ys y h

/-- Folding `min` over a constant list starting at the constant stays there. -/
theorem foldl_min_const (v : ℚ) : ∀ (xs : List ℚ), (∀ y ∈ xs, y = v) →
    xs.foldl min v = v
  | [], _ => rfl
  | y :: ys, h => by
      have hy : y = v := h y (List.mem_cons_self y ys)
      rw [List.foldl_cons, hy, min_self]
      exact foldl_min_const v ys (fun z hz => h z (List.mem_cons_of_mem y hz))

/-- Folding `max` over a constant list starting at the constant stays there. -/
theorem foldl_max_const (v : ℚ) : ∀ (xs : List ℚ), (∀ y ∈ xs, y = v) →
    xs.foldl max v = v
  | [], _ => rfl
  | y :: ys, h => by
      have hy : y = v := h y (List.mem_cons_self y ys)
      rw [List.foldl_cons, hy, max_self]
      exact foldl_max_const v ys (fun z hz => h z (List.mem_cons_of_mem y hz))

/- ### Claim C1 -/

/-- C1 counterexample: the claim that every layer entry passed to a
`Sequential` constructor carries a unit count is false — the red-wine model of
the deep_neural_networks notebook (and the dropout illustration) pass
`Dropout(0.3)` and `BatchNormalization()` entries, which carry no unit
count. -/
theorem c1_unit_count_counterexample :
    ¬ (∀ cfg ∈ allSequentialConfigs, ∀ l ∈ cfg, carriesUnitCount l = true) := by
  decide

/-- C1 (amended): every model configuration is a nonempty ordered list of
layer descriptors, each of which is a `Dense` descriptor (the only kind
carrying a unit count, with at most an activation name and optionally an input
shape), a `Dropout` descriptor (carrying a rate), or a `BatchNormalization`
descriptor (carrying nothing); no standalone `Activation` layer is ever passed
to a `Sequential` constructor. -/
theorem c1_descriptor_shape :
    ∀ cfg ∈ allSequentialConfigs,
      cfg ≠ [] ∧ ∀ l ∈ cfg, (isDense l || isDropout l || isBatchNorm l) = true := by
  decide

/-- The deep_neural_networks red-wine model is one of the embedded
`Sequential` configurations. -/
theorem dnnWineModel_mem_configs : dnnWineModel ∈ allSequentialConfigs := by
  unfold allSequentialConfigs
  exact List.mem_cons_of_mem _ (List.mem_cons_of_mem _
    (List.mem_cons_of_mem _ (List.mem_cons_self _ _)))

/-- Witness for `c1_descriptor_shape` at the red-wine model of the
deep_neural_networks notebook. -/
theorem c1_descriptor_shape_witness :
    dnnWineModel ∈ allSequentialConfigs ∧
    (dnnWineModel ≠ [] ∧
      ∀ l ∈ dnnWineModel, (isDense l || isDropout l || isBatchNorm l) = true) :=
  ⟨dnnWineModel_mem_configs, c1_descriptor_shape dnnWineModel dnnWineModel_mem_configs⟩

/- ### Claim C2 -/

/-- C2: with `df_train = red_wine.sample(frac=0.7, random_state=0)` and
`df_valid = red_wine.drop(df_train.index)`, the two partitions' index sets are
disjoint, their union is the full index set (so every row belongs to exactly
one of them), and each is duplicate-free when the dataframe's index is. -/
theorem c2_split_partitions (df : List Nat) (g : Nat) (h : df.Nodup) :
    (∀ i, i ∈ df ↔
        (i ∈ (trainValidSplit (some 0) g df).1 ∨ i ∈ (trainValidSplit (some 0) g df).2)) ∧
    (∀ i, ¬ (i ∈ (trainValidSplit (some 0) g df).1 ∧ i ∈ (trainValidSplit (some 0) g df).2)) ∧
    (trainValidSplit (some 0) g df).1.Nodup ∧
    (trainValidSplit (some 0) g df).2.Nodup := by
  have htrain : (trainValidSplit (some 0) g df).1 =
      sampleAux (lcgNext 0) ((7 * df.length + 5) / 10) df := rfl
  have hvalid : (trainValidSplit (some 0) g df).2 =
      df.filter (fun i => decide (i ∉ (trainValidSplit (some 0) g df).1)) := rfl
  refine ⟨?_, ?_, ?_, ?_⟩
  · intro i
    constructor
    · intro hdf
      by_cases hi : i ∈ (trainValidSplit (some 0) g df).1
      · exact Or.inl hi
      · refine Or.inr ?_
        rw [hvalid]
        exact List.mem_filter.mpr ⟨hdf, by simpa using hi⟩
    · intro hor
      rcases hor with hi | hi
      · rw [htrain] at hi
        exact sampleAux_subset _ _ _ _ hi
      · rw [hvalid] at hi
        exact (List.mem_filter.mp hi).1
  · rintro i ⟨h1, h2⟩
    rw [hvalid] at h2
    have hnot := (List.mem_filter.mp h2).2
    simp only [decide_eq_true_eq] at hnot
    exact hnot h1
  · rw [htrain]
    exact sampleAux_nodup _ _ _ h
  · rw [hvalid]
    exact h.filter _

/-- Witness for `c2_split_partitions` at the index list `[0, 1, 2, 3, 4]`. -/
theorem c2_split_partitions_witness :
    ([0, 1, 2, 3, 4] : List Nat).Nodup ∧
    ((∀ i, i ∈ ([0, 1, 2, 3, 4] : List Nat) ↔
        (i ∈ (trainValidSplit (some 0) 0 [0, 1, 2, 3, 4]).1 ∨
         i ∈ (trainValidSplit (some 0) 0 [0, 1, 2, 3, 4]).2)) ∧
     (∀ i, ¬ (i ∈ (trainValidSplit (some 0) 0 [0, 1, 2, 3, 4]).1 ∧
              i ∈ (trainValidSplit (some 0) 0 [0, 1, 2, 3, 4]).2)) ∧
     (trainValidSplit (some 0) 0 [0, 1, 2, 3, 4]).1.Nodup ∧
     (trainValidSplit (some 0) 0 [0, 1, 2, 3, 4]).2.Nodup) :=
  ⟨by decide, c2_split_partitions [0, 1, 2, 3, 4] 0 (by decide)⟩

/- ### Claim C3 -/

/-- C3: the split is deterministic — with the fixed seed `random_state=0` and
`frac=0.7`, two runs of the split step over the same dataframe produce
identical training and validation partitions, whatever the ambient generator
state of each run happens to be. -/
theorem c3_split_deterministic (df : List Nat) (g1 g2 : Nat) :
    trainValidSplit (some 0) g1 df = trainValidSplit (some 0) g2 df := rfl

/- ### Claim C4 -/

/-- C4 counterexample: the early-stopping notebook does not execute exactly
the five-step pipeline — even ignoring imports, its statement sequence also
contains the three capacity demonstration models before the CSV load, the
`EarlyStopping` configuration, a `display` call, the min-max scaling step and
the feature/target selection between the split and the fit, and a final
`print`. -/
theorem c4_pipeline_counterexample :
    ¬ (nonImportSteps part000Steps = fivePipelineSteps) := by
  decide

/-- C4 (amended): in both training notebooks the five steps — load the CSV
from the relative path `../data/red-wine.csv`, split, construct the fitted
model, fit, plot the loss history — occur in this relative order as an ordered
subsequence of the notebook's statements, and the CSV load is the only file
read; but additional statements (demonstration models, callback configuration,
display/summary/print calls, plot setup, min-max scaling, feature selection)
surround and intervene between them. -/
theorem c4_pipeline_order :
    isOrderedSubseq fivePipelineSteps part000Steps = true ∧
    isOrderedSubseq fivePipelineSteps dnnTrainingSteps = true ∧
    csvPaths part000Steps = ["../data/red-wine.csv"] ∧
    csvPaths dnnTrainingSteps = ["../data/red-wine.csv"] ∧
    isRelativePath "../data/red-wine.csv" = true := by
  decide

/- ### Claim C6 -/

/-- C6: scaling by `(x - min_) / (max_ - min_)` with the column minimum and
maximum taken from the training partition maps every training value into
`[0, 1]` when the column is non-constant, while a validation value scaled with
the same training statistics need not land in `[0, 1]`. -/
theorem c6_minmax_scaling (train : List ℚ) (hlt : colMin train < colMax train) :
    (∀ z ∈ scaleFrame train train, 0 ≤ z ∧ z ≤ 1) ∧
    (∃ valid : List ℚ, ∃ z ∈ scaleFrame train valid, ¬ (0 ≤ z ∧ z ≤ 1)) := by
  have hpos : (0 : ℚ) < colMax train - colMin train := sub_pos.mpr hlt
  constructor
  · intro z hz
    rcases List.mem_map.mp hz with ⟨x, hx, rfl⟩
    constructor
    · exact div_nonneg (sub_nonneg.mpr (colMin_le_of_mem hx)) (le_of_lt hpos)
    · refine (div_le_one hpos).mpr ?_
      have := le_colMax_of_mem hx
      linarith
  · refine ⟨[2 * colMax train - colMin train],
      minMaxScale train (2 * colMax train - colMin train), ?_, ?_⟩
    · simp [scaleFrame]
    · have hne : colMax train - colMin train ≠ 0 := ne_of_gt hpos
      have h2 : minMaxScale train (2 * colMax train - colMin train) = 2 := by
        unfold minMaxScale
        rw [div_eq_iff hne]
        ring
      rw [h2]
      rintro ⟨-, hc⟩
      linarith

/-- Witness for `c6_minmax_scaling` at the training column `[0, 1]`. -/
theorem c6_minmax_scaling_witness :
    colMin [0, 1] < colMax [0, 1] ∧
    ((∀ z ∈ scaleFrame [0, 1] [0, 1], 0 ≤ z ∧ z ≤ 1) ∧
     (∃ valid : List ℚ, ∃ z ∈ scaleFrame [0, 1] valid, ¬ (0 ≤ z ∧ z ≤ 1))) :=
  ⟨by norm_num [colMin, colMax], c6_minmax_scaling [0, 1] (by norm_num [colMin, colMax])⟩

/- ### Claim C7 -/

/-- C7: the scaling step divides by `max_ - min_` with no guard; it needs the
precondition that the column is non-constant, and on a constant (nonempty)
training column the denominator `max_ - min_` is zero and the precondition
fails. -/
theorem c7_constant_column_zero_denominator (c : List ℚ) (v : ℚ)
    (hne : c ≠ []) (hconst : ∀ y ∈ c, y = v) :
    colMax c - colMin c = 0 ∧ ¬ (colMin c < colMax c) := by
  cases c with
  | nil => exact absurd rfl hne
  | cons x xs =>
    have hx : x = v := hconst x (List.mem_cons_self x xs)
    have hxs : ∀ y ∈ xs, y = v := fun y hy => hconst y (List.mem_cons_of_mem x hy)
    have hmin : colMin (x :: xs) = v := by
      show xs.foldl min x = v
      rw [hx]
      exact foldl_min_const v xs hxs
    have hmax : colMax (x :: xs) = v := by
      show xs.foldl max x = v
      rw [hx]
      exact foldl_max_const v xs hxs
    rw [hmin, hmax]
    exact ⟨sub_self v, lt_irrefl v⟩

/-- Witness for `c7_constant_column_zero_denominator` at the constant column
`[5, 5]`. -/
theorem c7_constant_column_zero_denominator_witness :
    (([5, 5] : List ℚ) ≠ [] ∧ ∀ y ∈ ([5, 5] : List ℚ), y = 5) ∧
    (colMax [5, 5] - colMin [5, 5] = 0 ∧ ¬ (colMin ([5, 5] : List ℚ) < colMax [5, 5])) :=
  ⟨⟨by decide, by decide⟩,
   c7_constant_column_zero_denominator [5, 5] 5 (by decide) (by decide)⟩

/- ### Claim C8 -/

/-- C8: the red-wine dataset has 12 columns; dropping the single target column
`quality` leaves the 11 feature columns of `X_train` and `X_valid`, matching
the `input_shape=[11]` declared on the first `Dense` layer of each model
fitted to them (the 512-unit early-stopping model and the 1024-unit
deep_neural_networks model). -/
theorem c8_shape_compatibility :
    redWineColumns.length = 12 ∧
    featureColumns.length = 11 ∧
    firstInputShape p000WineModel = some [featureColumns.length] ∧
    firstInputShape dnnWineModel = some [featureColumns.length] := by
  decide

/- ### Claim C9 -/

/-- C9: no code cell of any notebook contains a `try`/`except`, a `raise`, or
an error-class definition; the repository implements no error handling of its
own. -/
theorem c9_no_error_handling :
    ∀ cell ∈ allCells, ∀ s ∈ cell, isErrorHandling s = false := by
  decide

/-- The fit cell of the early-stopping notebook is one of the embedded code
cells. -/
theorem fitCell_mem_allCells :
    [Stmt.fitModel, Stmt.plotHistory, Stmt.printValue] ∈ allCells := by
  unfold allCells part000Cells
  refine List.mem_append_right _ ?_
  exact List.mem_cons_of_mem _ (List.mem_cons_of_mem _ (List.mem_cons_of_mem _
    (List.mem_cons_of_mem _ (List.mem_cons_self _ _))))

/-- Witness for `c9_no_error_handling` at the fit cell of the early-stopping
notebook. -/
theorem c9_no_error_handling_witness :
    [Stmt.fitModel, Stmt.plotHistory, Stmt.printValue] ∈ allCells ∧
    isErrorHandling Stmt.fitModel = false :=
  ⟨fitCell_mem_allCells,
   c9_no_error_handling [Stmt.fitModel, Stmt.plotHistory, Stmt.printValue]
     fitCell_mem_allCells Stmt.fitModel (List.mem_cons_self _ _)⟩

/- ### Claim C10 -/

/-- C10: no code cell writes a file or otherwise persists state; the only
filesystem access anywhere is the read of `../data/red-wine.csv`. -/
theorem c10_no_persistent_state :
    ∀ cell ∈ allCells, ∀ s ∈ cell,
      writesPersistentState s = false ∧
      (readsFile s = none ∨ readsFile s = some "../data/red-wine.csv") := by
  decide

/-- The data-prep cell of the early-stopping notebook is one of the embedded
code cells. -/
theorem dataPrepCell_mem_allCells :
    [Stmt.importStmt, Stmt.importStmt, Stmt.readCSV "../data/red-wine.csv",
     Stmt.sampleSplit, Stmt.displayFrame, Stmt.scaleFrames, Stmt.selectFeatures] ∈ allCells := by
  unfold allCells part000Cells
  refine List.mem_append_right _ ?_
  exact List.mem_cons_of_mem _ (List.mem_cons_of_mem _ (List.mem_cons_self _ _))

/-- Witness for `c10_no_persistent_state` at the data-prep cell of the
early-stopping notebook and its CSV read. -/
theorem c10_no_persistent_state_witness :
    [Stmt.importStmt, Stmt.importStmt, Stmt.readCSV "../data/red-wine.csv",
     Stmt.sampleSplit, Stmt.displayFrame, Stmt.scaleFrames, Stmt.selectFeatures] ∈ allCells ∧
    (writesPersistentState (Stmt.readCSV "../data/red-wine.csv") = false ∧
     (readsFile (Stmt.readCSV "../data/red-wine.csv") = none ∨
      readsFile (Stmt.readCSV "../data/red-wine.csv") = some "../data/red-wine.csv")) :=
  ⟨dataPrepCell_mem_allCells,
   c10_no_persistent_state
     [Stmt.importStmt, Stmt.importStmt, Stmt.readCSV "../data/red-wine.csv",
      Stmt.sampleSplit, Stmt.displayFrame, Stmt.scaleFrames, Stmt.selectFeatures]
     dataPrepCell_mem_allCells (Stmt.readCSV "../data/red-wine.csv")
     (List.mem_cons_of_mem _ (List.mem_cons_of_mem _ (List.mem_cons_self _ _)))⟩

/- ### Lemmas about the early-stopping callback model -/

/-- One unfolding step of `esRun`. -/
theorem esRun_succ (d : ℚ) (p : Nat) (f : Nat → ℚ) (n : Nat) :
    esRun d p f (n + 1) = esStep d p (n + 1) (f (n + 1)) (esRun d p f n) := rfl

/-- Once training has stopped, later epochs leave the callback state
unchanged. -/
theorem esRun_frozen_add (d : ℚ) (p : Nat) (f : Nat → ℚ) (n : Nat)
    (h : (esRun d p f n).stoppedAt.isSome) :
    ∀ k, esRun d p f (n + k) = esRun d p f n
  | 0 => rfl
  | k + 1 => by
      have hk := esRun_frozen_add d p f n h k
      show esStep d p (n + k + 1) (f (n + k + 1)) (esRun d p f (n + k)) = esRun d p f n
      rw [hk]
      unfold esStep
      rw [if_pos h]

/-- The recorded stopping epoch never exceeds the number of epochs
processed. -/
theorem esRun_stoppedAt_le (d : ℚ) (p : Nat) (f : Nat → ℚ) :
    ∀ (n s : Nat), (esRun d p f n).stoppedAt = some s → s ≤ n := by
  intro n
  induction n with
  | zero => intro s h; exact absurd h (by simp [esRun])
  | succ n ih =>
    intro s h
    rw [esRun_succ] at h
    unfold esStep at h
    by_cases h1 : (esRun d p f n).stoppedAt.isSome
    · rw [if_pos h1] at h
      exact Nat.le_succ_of_le (ih s h)
    · rw [if_neg h1] at h
      by_cases h2 : f (n + 1) < (esRun d p f n).best - d
      · rw [if_pos h2] at h
        simp at h
      · rw [if_neg h2] at h
        by_cases h3 : p ≤ (esRun d p f n).wait + 1
        · rw [if_pos h3] at h
          have hs : (some (n + 1) : Option Nat) = some s := h
          injection hs with hs
          omega
        · rw [if_neg h3] at h
          have hs : (esRun d p f n).stoppedAt = some s := h
          exact absurd (Option.isSome_iff_exists.mpr ⟨s, hs⟩) h1

/-- While training has not stopped, the wait counter stays below the
patience. -/
theorem esRun_wait_lt (d : ℚ) (p : Nat) (f : Nat → ℚ) (hp : 1 ≤ p) :
    ∀ n, (esRun d p f n).stoppedAt = none → (esRun d p f n).wait < p := by
  intro n
  induction n with
  | zero => intro _; exact hp
  | succ n ih =>
    intro h
    rw [esRun_succ] at h ⊢
    unfold esStep at h ⊢
    by_cases h1 : (esRun d p f n).stoppedAt.isSome
    · rw [if_pos h1] at h ⊢
      exact ih h
    · rw [if_neg h1] at h ⊢
      by_cases h2 : f (n + 1) < (esRun d p f n).best - d
      · rw [if_pos h2]
        exact hp
      · rw [if_neg h2] at h ⊢
        by_cases h3 : p ≤ (esRun d p f n).wait + 1
        · rw [if_pos h3] at h
          exact absurd h (by simp)
        · rw [if_neg h3]
          show (esRun d p f n).wait + 1 < p
          omega

/-- The tracked best value lies within `minDelta` of every loss observed up to
the stop (or up to the current epoch if no stop has happened). -/
theorem esRun_best_le (d : ℚ) (p : Nat) (f : Nat → ℚ) (hd : 0 ≤ d) :
    ∀ n : Nat, ∀ j : Nat, j ≤ n →
      ((esRun d p f n).stoppedAt = none ∨
        ∃ s, (esRun d p f n).stoppedAt = some s ∧ j ≤ s) →
      (esRun d p f n).best ≤ f j + d := by
  intro n
  induction n with
  | zero =>
    intro j hj _
    have hj0 : j = 0 := Nat.le_zero.mp hj
    subst hj0
    show f 0 ≤ f 0 + d
    exact le_add_of_nonneg_right hd
  | succ n ih =>
    intro j hj hcase
    by_cases h1 : (esRun d p f n).stoppedAt.isSome
    · have hfroz : esRun d p f (n + 1) = esRun d p f n := by
        rw [esRun_succ]
        unfold esStep
        rw [if_pos h1]
      rw [hfroz] at hcase ⊢
      obtain ⟨s0, hs0⟩ := Option.isSome_iff_exists.mp h1
      rcases hcase with hnone | ⟨s, hs, hjs⟩
      · rw [hs0] at hnone
        cases hnone
      · rw [hs0] at hs
        injection hs with hss
        have hjs0 : j ≤ s0 := by omega
        have hsn : s0 ≤ n := esRun_stoppedAt_le d p f n s0 hs0
        exact ih j (le_trans hjs0 hsn) (Or.inr ⟨s0, hs0, hjs0⟩)
    · have hnone : (esRun d p f n).stoppedAt = none :=
        Option.not_isSome_iff_eq_none.mp h1
      by_cases h2 : f (n + 1) < (esRun d p f n).best - d
      · have himp : esRun d p f (n + 1) =
            { best := f (n + 1), bestEpoch := n + 1, wait := 0, stoppedAt := none } := by
          rw [esRun_succ]
          unfold esStep
          rw [if_neg h1, if_pos h2]
        rw [himp]
        show f (n + 1) ≤ f j + d
        by_cases hjn : j ≤ n
        · have hb := ih j hjn (Or.inl hnone)
          linarith
        · have hje : j = n + 1 := by omega
          subst hje
          linarith
      · have hnoimp : (esRun d p f n).best ≤ f (n + 1) + d := by
          have := not_lt.mp h2
          linarith
        by_cases h3 : p ≤ (esRun d p f n).wait + 1
        · have hstop2 : esRun d p f (n + 1) =
              { best := (esRun d p f n).best, bestEpoch := (esRun d p f n).bestEpoch,
                wait := (esRun d p f n).wait + 1, stoppedAt := some (n + 1) } := by
            rw [esRun_succ]
            unfold esStep
            rw [if_neg h1, if_neg h2, if_pos h3]
          rw [hstop2]
          show (esRun d p f n).best ≤ f j + d
          by_cases hjn : j ≤ n
          · exact ih j hjn (Or.inl hnone)
          · have hje : j = n + 1 := by omega
            subst hje
            exact hnoimp
        · have hcont : esRun d p f (n + 1) =
              { best := (esRun d p f n).best, bestEpoch := (esRun d p f n).bestEpoch,
                wait := (esRun d p f n).wait + 1, stoppedAt := (esRun d p f n).stoppedAt } := by
            rw [esRun_succ]
            unfold esStep
            rw [if_neg h1, if_neg h2, if_neg h3]
          rw [hcont]
          show (esRun d p f n).best ≤ f j + d
          by_cases hjn : j ≤ n
          · exact ih j hjn (Or.inl hnone)
          · have hje : j = n + 1 := by omega
            subst hje
            exact hnoimp

/-- The tracked best value is the validation loss of the recorded best
epoch. -/
theorem esRun_best_eq (d : ℚ) (p : Nat) (f : Nat → ℚ) :
    ∀ n, (esRun d p f n).best = f (esRun d p f n).bestEpoch := by
  intro n
  induction n with
  | zero => rfl
  | succ n ih =>
    rw [esRun_succ]
    unfold esStep
    by_cases h1 : (esRun d p f n).stoppedAt.isSome
    · rw [if_pos h1]
      exact ih
    · rw [if_neg h1]
      by_cases h2 : f (n + 1) < (esRun d p f n).best - d
      · rw [if_pos h2]
      · rw [if_neg h2]
        by_cases h3 : p ≤ (esRun d p f n).wait + 1
        · rw [if_pos h3]
          exact ih
        · rw [if_neg h3]
          exact ih

/-- When a whole patience window of epochs after epoch `e` fails to improve on
a loss already seen by epoch `e`, the callback has stopped training by the end
of that window. -/
theorem esRun_stops_of_window (d : ℚ) (p : Nat) (f : Nat → ℚ)
    (hd : 0 ≤ d) (hp : 1 ≤ p) (e : Nat)
    (hwin : ∀ j, e < j → j ≤ e + p → ∃ i, i ≤ e ∧ f i ≤ f j) :
    (esRun d p f (e + p)).stoppedAt.isSome := by
  have key : ∀ k, k ≤ p →
      (esRun d p f (e + k)).stoppedAt.isSome ∨
      ((esRun d p f (e + k)).stoppedAt = none ∧ k ≤ (esRun d p f (e + k)).wait) := by
    intro k
    induction k with
    | zero =>
      intro _
      by_cases h : (esRun d p f e).stoppedAt.isSome
      · exact Or.inl h
      · exact Or.inr ⟨Option.not_isSome_iff_eq_none.mp h, Nat.zero_le _⟩
    | succ k ih =>
      intro hk
      rcases ih (Nat.le_of_succ_le hk) with h | ⟨hnone, hwait⟩
      · left
        have hfroz : esRun d p f (e + (k + 1)) = esRun d p f (e + k) := by
          rw [show e + (k + 1) = (e + k) + 1 from rfl, esRun_succ]
          unfold esStep
          rw [if_pos h]
        rw [hfroz]
        exact h
      · obtain ⟨i, hie, hfi⟩ := hwin (e + k + 1) (by omega) (by omega)
        have hbest : (esRun d p f (e + k)).best ≤ f i + d :=
          esRun_best_le d p f hd (e + k) i (by omega) (Or.inl hnone)
        have hnoimp : ¬ (f (e + k + 1) < (esRun d p f (e + k)).best - d) := by
          intro hc
          have h1 : f (e + k + 1) < f i := by linarith
          linarith
        have hnotsome : ¬ (esRun d p f (e + k)).stoppedAt.isSome := by
          rw [hnone]
          simp
        rw [show e + (k + 1) = (e + k) + 1 from rfl, esRun_succ]
        unfold esStep
        rw [if_neg hnotsome, if_neg hnoimp]
        by_cases h3 : p ≤ (esRun d p f (e + k)).wait + 1
        · rw [if_pos h3]
          left
          rfl
        · rw [if_neg h3]
          right
          refine ⟨?_, ?_⟩
          · show (esRun d p f (e + k)).stoppedAt = none
            exact hnone
          · show k + 1 ≤ (esRun d p f (e + k)).wait + 1
            omega
  rcases key p (le_refl p) with h | ⟨hnone, hwait⟩
  · exact h
  · have := esRun_wait_lt d p f hp (e + p) hnone
    omega

/-- When training stopped at epoch `s`, a fit requesting `m + 1` epochs runs
exactly `s + 1` of them. -/
theorem epochsRun_succ_of_stopped (d : ℚ) (p m : Nat) (f : Nat → ℚ) (s : Nat)
    (h : (esRun d p f m).stoppedAt = some s) :
    epochsRun d p (m + 1) f = s + 1 := by
  show (match (esRun d p f m).stoppedAt with
        | some e => e + 1
        | none => m + 1) = s + 1
  rw [h]

/- ### Claim C5 -/

/-- C5: with `EarlyStopping(min_delta=0.001, patience=20,
restore_best_weights=True)` passed to `fit(epochs=500)`, whenever a window of
20 consecutive epochs ending before epoch 500 brings no improvement on a
validation loss already attained, training stops at the end of that window —
strictly before the requested 500 epochs — and the weights kept are those of
the recorded best epoch, whose validation loss is within 0.001 of every loss
observed during the run. -/
theorem c5_early_stopping (valLoss : Nat → ℚ) (e : Nat)
    (hend : e + 20 < 499)
    (hwin : ∀ j, e < j → j ≤ e + 20 → ∃ i, i ≤ e ∧ valLoss i ≤ valLoss j) :
    p000FitEpochsRun valLoss < 500 ∧
    p000FitEpochsRun valLoss ≤ e + 21 ∧
    valLoss (p000FitKeptEpoch valLoss) = (esRun (1/1000) 20 valLoss 499).best ∧
    (∀ j, j < p000FitEpochsRun valLoss →
      valLoss (p000FitKeptEpoch valLoss) ≤ valLoss j + 1/1000) := by
  have hd : (0 : ℚ) ≤ 1/1000 := by norm_num
  have hp : 1 ≤ 20 := by norm_num
  have hstop : (esRun (1/1000) 20 valLoss (e + 20)).stoppedAt.isSome :=
    esRun_stops_of_window (1/1000) 20 valLoss hd hp e hwin
  obtain ⟨s, hs⟩ := Option.isSome_iff_exists.mp hstop
  have hsle : s ≤ e + 20 := esRun_stoppedAt_le (1/1000) 20 valLoss (e + 20) s hs
  have h499 : esRun (1/1000) 20 valLoss 499 = esRun (1/1000) 20 valLoss (e + 20) := by
    have hfr := esRun_frozen_add (1/1000) 20 valLoss (e + 20) hstop (499 - (e + 20))
    rw [show (e + 20) + (499 - (e + 20)) = 499 from by omega] at hfr
    exact hfr
  have hs499 : (esRun (1/1000) 20 valLoss 499).stoppedAt = some s := by
    rw [h499]
    exact hs
  have hrun : p000FitEpochsRun valLoss = s + 1 := by
    show epochsRun (1/1000) 20 500 valLoss = s + 1
    rw [show (500 : Nat) = 499 + 1 from rfl]
    exact epochsRun_succ_of_stopped (1/1000) 20 499 valLoss s hs499
  have hbeq : (esRun (1/1000) 20 valLoss 499).best =
      valLoss ((esRun (1/1000) 20 valLoss 499).bestEpoch) :=
    esRun_best_eq (1/1000) 20 valLoss 499
  refine ⟨by omega, by omega, hbeq.symm, ?_⟩
  intro j hj
  have hj' : j ≤ s := by omega
  have hb := esRun_best_le (1/1000) 20 valLoss hd 499 j (by omega)
    (Or.inr ⟨s, hs499, hj'⟩)
  show valLoss (p000FitKeptEpoch valLoss) ≤ valLoss j + 1/1000
  have hkept : valLoss (p000FitKeptEpoch valLoss) =
      (esRun (1/1000) 20 valLoss 499).best := hbeq.symm
  rw [hkept]
  exact hb

/-- Witness for `c5_early_stopping` at the constant validation-loss sequence
`1`, with the no-improvement window starting at epoch 0. -/
theorem c5_early_stopping_witness :
    (0 + 20 < 499) ∧ p000FitEpochsRun (fun _ => 1) < 500 :=
  ⟨by norm_num,
   (c5_early_stopping (fun _ => 1) 0 (by norm_num)
     (fun j _ _ => ⟨0, Nat.zero_le 0, le_refl 1⟩)).1⟩
